import Mathlib

/-!
Verification of the OSMD demo score scraper (`demo/osmd-samples/scrapper.py`).

The script has two stages.  The link extractor drives a headless browser to
the demo page, reads every `<option>` of the first `<select>` element,
keeps the values that are truthy and end in `.xml` or `.mxl`, and removes
duplicates (`urls = list(set(urls))`).  The bulk fetcher then, for each url,
derives `filename = url.split("/")[-1]`, joins it under `DOWNLOAD_DIR`,
issues `requests.get`, calls `raise_for_status()`, and writes the body with
`open(dest, "wb")`; the whole item body sits in a per-item `try`/`except`
that prints one `FAILED to download .. ` line and continues.  After the loop
the script prints `Done!` unconditionally.

We embed both stages as pure functions over oracles for the external world:
the raw option values (`List (Option String)`, `none` modelling a null
`value` attribute), a fetch oracle (`String → FetchResult`), a write oracle
(`String → Bool`, whether `open(dest, "wb")` succeeds) and a disk, a map
from path to file content.  Whether the browser launches and whether the
select control exists are two booleans of the whole-program model; an
uncaught exception terminates the Python process with exit status 1.
-/

namespace Scrapper

/-- Python `s.endswith(suffix)`: case-sensitive exact suffix test on the
character list of the string. -/
def pyEndsWith (s suffix : String) : Bool :=
  suffix.data.isSuffixOf s.data

/-- CONFIG constant of the script: `DOWNLOAD_DIR = "scores"`. -/
def DOWNLOAD_DIR : String := "scores"

/-- Truthiness of a Python string: `if val` is taken iff the string is
nonempty (and the attribute is not `None`). -/
def pyTruthy (s : String) : Bool := !(s == "")

/-- The filter of lines 33-34: `val and (val.endswith(".xml") or
val.endswith(".mxl"))`, where `none` models a null attribute. -/
def keepVal : Option String → Bool
  | none => false
  | some s => pyTruthy s && (pyEndsWith s ".xml" || pyEndsWith s ".mxl")

/-- The url-collection loop of lines 31-35: start from `[]` and append each
option value passing the filter; appending in a loop is `filterMap`. -/
def extractUrls (raw : List (Option String)) : List String :=
  raw.filterMap (fun v => if keepVal v then v else none)

/-- Line 40, `urls = list(set(urls))`: collapse to distinct strings.
Python's set iteration order is arbitrary; we keep first occurrences, and
no claim below depends on the order. -/
def referenceSet (raw : List (Option String)) : List String :=
  (extractUrls raw).dedup

/-- Outcome of `requests.get(url)` followed by `r.raise_for_status()`:
a response body, an HTTP error status (a non-success status makes
`raise_for_status` raise), or a connection-level exception raised by
`requests.get` itself. -/
inductive FetchResult where
  | success (body : String)
  | httpError (code : Nat)
  | connError
deriving DecidableEq

/-- Whether a fetch outcome raises inside the `try` block before the file
write is reached. -/
def isFetchFailure : FetchResult → Bool
  | .success _ => false
  | .httpError _ => true
  | .connError => true

/-- The local filesystem restricted to file contents: path to content. -/
abbrev Disk : Type := String → Option String

/-- `open(dest, "wb")` then `f.write(body)`: create or overwrite `dest`. -/
def store (d : Disk) (dest body : String) : Disk :=
  fun x => if x = dest then some body else d x

/-- Python `s.split(sep)` for a one-character separator, on character
lists: the result is never empty and keeps empty pieces, exactly like
`str.split` with an explicit separator. -/
def pySplitChar (c : Char) : List Char → List (List Char)
  | [] => [[]]
  | a :: rest =>
    match pySplitChar c rest with
    | [] => [[]]
    | s :: ss => if a = c then [] :: s :: ss else (a :: s) :: ss

/-- `url.split("/")` as a list of strings. -/
def pySplitSlash (s : String) : List String :=
  (pySplitChar '/' s.data).map (fun l => String.mk l)

/-- Line 45, `filename = url.split("/")[-1]`: a Python split is never
empty, so index -1 is the last element. -/
def pyFilename (url : String) : String :=
  (pySplitSlash url).getLastD ""

/-- `os.path.join(a, b)` for the shapes occurring here: an absolute second
component replaces the first, otherwise the components are joined by a
slash. -/
def osPathJoin (a b : String) : String :=
  match b.data with
  | '/' :: _ => b
  | _ => a ++ "/" ++ b

/-- Line 46: the destination path of a url,
`dest = os.path.join(DOWNLOAD_DIR, filename)`. -/
def destPath (url : String) : String :=
  osPathJoin DOWNLOAD_DIR (pyFilename url)

/-- Observable outcome of the download loop: the final disk, the urls a
GET was attempted for (in order), the completed file writes
`(dest, body)` (in order), and the printed failure lines, one entry per
printed `FAILED to download {url}: {e}` line (recorded by url). -/
structure LoopOut where
  disk : Disk
  attempts : List String
  writes : List (String × String)
  failures : List String

/-- The download loop of lines 44-53.  Each iteration derives the
destination, attempts the GET, and on success writes the body; any failure
(connection error, non-success status via `raise_for_status`, or a failing
`open`) is caught by the per-item `except`, which prints one line and lets
the loop continue with the next url. -/
def runLoop (fetch : String → FetchResult) (writeOk : String → Bool)
    (disk : Disk) : List String → LoopOut
  | [] => { disk := disk, attempts := [], writes := [], failures := [] }
  | url :: rest =>
    match fetch url with
    | .success body =>
      if writeOk (destPath url) then
        let r := runLoop fetch writeOk (store disk (destPath url) body) rest
        { r with attempts := url :: r.attempts,
                 writes := (destPath url, body) :: r.writes }
      else
        let r := runLoop fetch writeOk disk rest
        { r with attempts := url :: r.attempts, failures := url :: r.failures }
    | .httpError _ =>
      let r := runLoop fetch writeOk disk rest
      { r with attempts := url :: r.attempts, failures := url :: r.failures }
    | .connError =>
      let r := runLoop fetch writeOk disk rest
      { r with attempts := url :: r.attempts, failures := url :: r.failures }

/-- The fetch stage together with the final `print("Done!")` of line 55,
which sits after the loop and runs unconditionally. -/
structure DownloadResult extends LoopOut where
  done : Bool

/-- Run the download loop over every url, then print the completion
marker. -/
def runDownload (fetch : String → FetchResult) (writeOk : String → Bool)
    (disk : Disk) (urls : List String) : DownloadResult :=
  { toLoopOut := runLoop fetch writeOk disk urls, done := true }

/-- Observable outcome of one whole run of the script. -/
structure ProgramResult where
  exitCode : Nat
  browserStarted : Bool
  browserQuit : Bool
  downloads : Option DownloadResult

/-- The whole script.  `launchOk` models whether `webdriver.Chrome`
launches (line 20); `selectPresent` whether `driver.find_element(By.TAG_NAME,
"select")` finds a select control on line 27 (otherwise it raises
`NoSuchElementException`).  `driver.quit()` is the straight-line statement
of line 37, not guarded by any `try`/`finally`: it runs only when
extraction reached it, so an exception raised on line 27 propagates,
terminates the process with exit status 1, and leaves the browser process
running.  On the normal path, the deduplicated Reference Set feeds the
download loop and the process exits with status 0. -/
def runProgram (launchOk selectPresent : Bool) (raw : List (Option String))
    (fetch : String → FetchResult) (writeOk : String → Bool) (disk : Disk) :
    ProgramResult :=
  if launchOk then
    if selectPresent then
      { exitCode := 0, browserStarted := true, browserQuit := true,
        downloads := some (runDownload fetch writeOk disk (referenceSet raw)) }
    else
      { exitCode := 1, browserStarted := true, browserQuit := false,
        downloads := none }
  else
    { exitCode := 1, browserStarted := false, browserQuit := false,
      downloads := none }

/-- C1: in the download loop, a fetch or write failure for one reference
never prevents the attempt on any later reference: for every url list and
every failure pattern (the fetch and write oracles are arbitrary), the
attempted urls are exactly the input list, each once in order, and the
loop runs to completion, reaching the final marker, with no retry. -/
theorem claim_C1_fault_isolated_attempts (fetch : String → FetchResult)
    (writeOk : String → Bool) (disk : Disk) (urls : List String) :
    (runDownload fetch writeOk disk urls).attempts = urls ∧
    (runDownload fetch writeOk disk urls).done = true := by
  refine ⟨?_, rfl⟩
  show (runLoop fetch writeOk disk urls).attempts = urls
  induction urls generalizing disk with
  | nil => rfl
  | cons url rest ih =>
    cases hf : fetch url with
    | success body =>
      cases hw : writeOk (destPath url) <;> simp [runLoop, hf, hw, ih]
    | httpError code => simp [runLoop, hf, ih]
    | connError => simp [runLoop, hf, ih]

/-- C7: the process exit status is zero exactly when the browser launched
and the select control was present; fatal extraction errors propagate as a
non-zero exit, while per-item download failures (any fetch or write
oracle, including everything failing) still leave the exit status zero. -/
theorem claim_C7_exit_status (launchOk selectPresent : Bool)
    (raw : List (Option String)) (fetch : String → FetchResult)
    (writeOk : String → Bool) (disk : Disk) :
    (runProgram launchOk selectPresent raw fetch writeOk disk).exitCode = 0 ↔
      (launchOk = true ∧ selectPresent = true) := by
  cases launchOk <;> cases selectPresent <;> simp [runProgram]

/-- C3 is refuted by the code: when the browser launches but the select
control is absent, `find_element` raises on line 27 before the
`driver.quit()` of line 37, so the run ends (exit status 1) with the
browser process started but never terminated - an orphaned browser. -/
theorem claim_C3_browser_leaked_on_missing_select :
    (runProgram true false [some "a.xml"] (fun _ => FetchResult.httpError 404)
        (fun _ => true) (fun _ => none)).browserStarted = true ∧
    (runProgram true false [some "a.xml"] (fun _ => FetchResult.httpError 404)
        (fun _ => true) (fun _ => none)).browserQuit = false ∧
    (runProgram true false [some "a.xml"] (fun _ => FetchResult.httpError 404)
        (fun _ => true) (fun _ => none)).exitCode = 1 :=
  ⟨rfl, rfl, rfl⟩

/-- When every file open succeeds, the failure lines of the loop are
exactly the urls whose fetch fails, in order. -/
theorem runLoop_failures_eq (fetch : String → FetchResult) (disk : Disk)
    (urls : List String) :
    (runLoop fetch (fun _ => true) disk urls).failures
      = urls.filter (fun u => isFetchFailure (fetch u)) := by
  induction urls generalizing disk with
  | nil => rfl
  | cons url rest ih =>
    cases hf : fetch url with
    | success body => simp [runLoop, hf, List.filter_cons, isFetchFailure, ih]
    | httpError code => simp [runLoop, hf, List.filter_cons, isFetchFailure, ih]
    | connError => simp [runLoop, hf, List.filter_cons, isFetchFailure, ih]

/-- When every file open succeeds, each url produces exactly one write or
exactly one failure line. -/
theorem runLoop_write_count (fetch : String → FetchResult) (disk : Disk)
    (urls : List String) :
    (runLoop fetch (fun _ => true) disk urls).writes.length
      + (runLoop fetch (fun _ => true) disk urls).failures.length
      = urls.length := by
  induction urls generalizing disk with
  | nil => rfl
  | cons url rest ih =>
    cases hf : fetch url with
    | success body =>
      have h := ih (store disk (destPath url) body)
      simp [runLoop, hf]
      omega
    | httpError code =>
      have h := ih disk
      simp [runLoop, hf]
      omega
    | connError =>
      have h := ih disk
      simp [runLoop, hf]
      omega

/-- C2: over a url list of length N of which exactly K fail (network error
or non-success status; the write oracle accepts everything), the run emits
exactly K failure lines, performs exactly N-K file writes, and prints the
completion marker whatever K is. -/
theorem claim_C2_failure_and_write_counts (fetch : String → FetchResult)
    (disk : Disk) (urls : List String) :
    (runDownload fetch (fun _ => true) disk urls).failures.length
      = (urls.filter (fun u => isFetchFailure (fetch u))).length ∧
    (runDownload fetch (fun _ => true) disk urls).writes.length
      = urls.length
        - (urls.filter (fun u => isFetchFailure (fetch u))).length ∧
    (runDownload fetch (fun _ => true) disk urls).done = true := by
  refine ⟨?_, ?_, rfl⟩
  · show (runLoop fetch (fun _ => true) disk urls).failures.length = _
    rw [runLoop_failures_eq]
  · show (runLoop fetch (fun _ => true) disk urls).writes.length = _
    have h1 := runLoop_failures_eq fetch disk urls
    have h2 := runLoop_write_count fetch disk urls
    rw [← h1]
    omega

/-- Membership in the Reference Set forces the filter condition of lines
33-34: the value is nonempty and carries one of the two suffixes. -/
theorem mem_referenceSet_keep (raw : List (Option String)) (u : String)
    (h : u ∈ referenceSet raw) :
    u ≠ "" ∧ (pyEndsWith u ".xml" = true ∨ pyEndsWith u ".mxl" = true) := by
  unfold referenceSet extractUrls at h
  rw [List.mem_dedup, List.mem_filterMap] at h
  obtain ⟨v, _, hkeep⟩ := h
  by_cases hk : keepVal v = true
  · rw [if_pos hk] at hkeep
    subst hkeep
    simp only [keepVal, pyTruthy, Bool.and_eq_true, Bool.not_eq_eq_eq_not,
      Bool.not_true, Bool.or_eq_true, beq_eq_false_iff_ne, ne_eq] at hk
    exact hk
  · rw [if_neg hk] at hkeep
    exact absurd hkeep (Option.noConfusion)

/-- C4: a url appears in the Reference Set only if its option value is
nonempty and ends, case-sensitively, with one of exactly the two suffixes
".xml" and ".mxl"; any other suffix never makes it into the set. -/
theorem claim_C4_suffix_filter (raw : List (Option String)) (u : String)
    (h : u ∈ referenceSet raw) :
    u ≠ "" ∧ (pyEndsWith u ".xml" = true ∨ pyEndsWith u ".mxl" = true) :=
  mem_referenceSet_keep raw u h

/-- Witness for C4 at the raw options `[some "a.xml"]`. -/
theorem claim_C4_suffix_filter_witness :
    ("a.xml" ∈ referenceSet [some "a.xml"]) ∧
    ("a.xml" ≠ "" ∧ (pyEndsWith "a.xml" ".xml" = true ∨
        pyEndsWith "a.xml" ".mxl" = true)) :=
  ⟨by decide, claim_C4_suffix_filter [some "a.xml"] "a.xml" (by decide)⟩

/-- C5: the Reference Set handed to the download stage never contains a
duplicate url string, however often a value occurs among the raw
options. -/
theorem claim_C5_no_duplicates (raw : List (Option String)) :
    (referenceSet raw).Nodup :=
  List.nodup_dedup _

/-- C6: a reference whose GET returns a non-success HTTP status creates or
modifies no file: the loop threads the disk through unchanged for that
item, records no write, prints exactly one failure line for it, and
continues with the remaining urls. -/
theorem claim_C6_http_error_writes_nothing (fetch : String → FetchResult)
    (writeOk : String → Bool) (disk : Disk) (url : String)
    (rest : List String) (code : Nat)
    (h : fetch url = FetchResult.httpError code) :
    (runLoop fetch writeOk disk (url :: rest)).disk
      = (runLoop fetch writeOk disk rest).disk ∧
    (runLoop fetch writeOk disk (url :: rest)).writes
      = (runLoop fetch writeOk disk rest).writes ∧
    (runLoop fetch writeOk disk (url :: rest)).failures
      = url :: (runLoop fetch writeOk disk rest).failures ∧
    (runLoop fetch writeOk disk (url :: rest)).attempts
      = url :: (runLoop fetch writeOk disk rest).attempts := by
  simp [runLoop, h]

/-- Witness for C6: a 404 on the example url leaves the (empty) disk
untouched and produces the single failure line. -/
theorem claim_C6_http_error_witness :
    ((fun _ : String => FetchResult.httpError 404)
        "https://host/path/song.mxl" = FetchResult.httpError 404) ∧
    ((runLoop (fun _ => FetchResult.httpError 404) (fun _ => true)
          (fun _ => none) ["https://host/path/song.mxl"]).disk
        = (runLoop (fun _ => FetchResult.httpError 404) (fun _ => true)
          (fun _ => none) []).disk ∧
     (runLoop (fun _ => FetchResult.httpError 404) (fun _ => true)
          (fun _ => none) ["https://host/path/song.mxl"]).writes
        = (runLoop (fun _ => FetchResult.httpError 404) (fun _ => true)
          (fun _ => none) []).writes ∧
     (runLoop (fun _ => FetchResult.httpError 404) (fun _ => true)
          (fun _ => none) ["https://host/path/song.mxl"]).failures
        = "https://host/path/song.mxl"
          :: (runLoop (fun _ => FetchResult.httpError 404) (fun _ => true)
          (fun _ => none) []).failures ∧
     (runLoop (fun _ => FetchResult.httpError 404) (fun _ => true)
          (fun _ => none) ["https://host/path/song.mxl"]).attempts
        = "https://host/path/song.mxl"
          :: (runLoop (fun _ => FetchResult.httpError 404) (fun _ => true)
          (fun _ => none) []).attempts) :=
  ⟨rfl, claim_C6_http_error_writes_nothing (fun _ => FetchResult.httpError 404)
    (fun _ => true) (fun _ => none) "https://host/path/song.mxl" [] 404 rfl⟩

/-- Replay a list of completed file writes against a disk, oldest
first. -/
def applyWrites : List (String × String) → Disk → Disk
  | [], d => d
  | (k, v) :: ws, d => applyWrites ws (store d k v)

/-- First value paired with a key in an association list. -/
def findVal (x : String) : List (String × String) → Option String
  | [] => none
  | (k, v) :: ws => if x = k then some v else findVal x ws

/-- Left-biased choice used to describe lookups layered over a disk. -/
def orD (o d : Option String) : Option String :=
  match o with
  | some v => some v
  | none => d

theorem findVal_append (x : String) (a b : List (String × String)) :
    findVal x (a ++ b) = orD (findVal x a) (findVal x b) := by
  induction a with
  | nil => rfl
  | cons kv t ih =>
    obtain ⟨k, v⟩ := kv
    by_cases h : x = k <;> simp [findVal, h, ih, orD]

theorem applyWrites_apply (ws : List (String × String)) (d : Disk)
    (x : String) :
    applyWrites ws d x = orD (findVal x ws.reverse) (d x) := by
  induction ws generalizing d with
  | nil => rfl
  | cons kv ws ih =>
    obtain ⟨k, v⟩ := kv
    rw [List.reverse_cons, findVal_append]
    show applyWrites ws (store d k v) x = _
    rw [ih]
    cases hfk : findVal x ws.reverse with
    | some w => simp [orD]
    | none =>
      simp only [orD, store, findVal]
      by_cases h : x = k <;> simp [h]

/-- Replaying the same write sequence twice is the same as replaying it
once: the second pass overwrites every file with the content it already
has. -/
theorem applyWrites_idem (ws : List (String × String)) (d : Disk) :
    applyWrites ws (applyWrites ws d) = applyWrites ws d := by
  funext x
  rw [applyWrites_apply, applyWrites_apply]
  cases findVal x ws.reverse <;> simp [orD]

/-- The write list of the loop does not depend on the starting disk (the
script never reads the disk). -/
theorem runLoop_writes_indep (fetch : String → FetchResult)
    (writeOk : String → Bool) (d d' : Disk) (urls : List String) :
    (runLoop fetch writeOk d urls).writes
      = (runLoop fetch writeOk d' urls).writes := by
  induction urls generalizing d d' with
  | nil => rfl
  | cons url rest ih =>
    cases hf : fetch url with
    | success body =>
      cases hw : writeOk (destPath url) with
      | true =>
        simp only [runLoop, hf, hw, if_true]
        exact congrArg _ (ih _ _)
      | false =>
        simp only [runLoop, hf, hw, Bool.false_eq_true, if_false]
        exact ih _ _
    | httpError code =>
      simp only [runLoop, hf]
      exact ih _ _
    | connError =>
      simp only [runLoop, hf]
      exact ih _ _

/-- The final disk of the loop is the starting disk with the completed
writes replayed over it. -/
theorem runLoop_disk_eq (fetch : String → FetchResult)
    (writeOk : String → Bool) (d : Disk) (urls : List String) :
    (runLoop fetch writeOk d urls).disk
      = applyWrites (runLoop fetch writeOk d urls).writes d := by
  induction urls generalizing d with
  | nil => rfl
  | cons url rest ih =>
    cases hf : fetch url with
    | success body =>
      cases hw : writeOk (destPath url) with
      | true =>
        simp only [runLoop, hf, hw, if_true]
        exact ih (store d (destPath url) body)
      | false => simp [runLoop, hf, hw, ih]
    | httpError code => simp [runLoop, hf, ih]
    | connError => simp [runLoop, hf, ih]

/-- C8: with the same Reference Set, the same fetch outcomes and the same
write oracle, running the download stage a second time into the directory
produced by the first run overwrites the existing files without error and
reproduces exactly the first run's disk - in particular the same set of
filenames, with no duplicates (the disk maps each path to at most one
content) - and again reaches the completion marker. -/
theorem claim_C8_second_run_idempotent (fetch : String → FetchResult)
    (writeOk : String → Bool) (disk : Disk) (urls : List String) :
    (runDownload fetch writeOk
        (runDownload fetch writeOk disk urls).disk urls).disk
      = (runDownload fetch writeOk disk urls).disk ∧
    (runDownload fetch writeOk
        (runDownload fetch writeOk disk urls).disk urls).done = true := by
  refine ⟨?_, rfl⟩
  show (runLoop fetch writeOk (runLoop fetch writeOk disk urls).disk
      urls).disk = (runLoop fetch writeOk disk urls).disk
  rw [runLoop_disk_eq fetch writeOk (runLoop fetch writeOk disk urls).disk,
    runLoop_writes_indep fetch writeOk
      (runLoop fetch writeOk disk urls).disk disk,
    runLoop_disk_eq fetch writeOk disk,
    applyWrites_idem]

/-- The maximal suffix of a character list containing no occurrence of
`c`; this is what `s.split(c)[-1]` returns. -/
def afterLast (c : Char) (l : List Char) : List Char :=
  (l.reverse.takeWhile (fun x => x != c)).reverse

theorem pySplitChar_ne_nil (c : Char) (l : List Char) :
    pySplitChar c l ≠ [] := by
  cases l with
  | nil => simp [pySplitChar]
  | cons a rest =>
    unfold pySplitChar
    cases pySplitChar c rest with
    | nil => simp
    | cons s ss => by_cases h : a = c <;> simp [h]

theorem pySplitChar_snoc_sep (c : Char) (xs : List Char) :
    pySplitChar c (xs ++ [c]) = pySplitChar c xs ++ [[]] := by
  induction xs with
  | nil => simp [pySplitChar]
  | cons a xs ih =>
    have hne := pySplitChar_ne_nil c xs
    rcases hs : pySplitChar c xs with _ | ⟨s, ss⟩
    · exact absurd hs hne
    · rw [List.cons_append]
      unfold pySplitChar
      rw [ih, hs, List.cons_append]
      by_cases h : a = c <;> simp [h]

theorem pySplitChar_snoc_ne (c a : Char) (h : a ≠ c) (xs : List Char) :
    ∃ ys z, pySplitChar c xs = ys ++ [z] ∧
      pySplitChar c (xs ++ [a]) = ys ++ [z ++ [a]] := by
  induction xs with
  | nil => exact ⟨[], [], rfl, by simp [pySplitChar, h]⟩
  | cons b xs ih =>
    obtain ⟨ys, z, h1, h2⟩ := ih
    cases ys with
    | nil =>
      by_cases hb : b = c
      · refine ⟨[[]], z, ?_, ?_⟩
        · unfold pySplitChar
          rw [h1]
          simp [hb]
        · rw [List.cons_append]
          unfold pySplitChar
          rw [h2]
          simp [hb]
      · refine ⟨[], b :: z, ?_, ?_⟩
        · unfold pySplitChar
          rw [h1]
          simp [hb]
        · rw [List.cons_append]
          unfold pySplitChar
          rw [h2]
          simp [hb]
    | cons y ys =>
      by_cases hb : b = c
      · refine ⟨[] :: y :: ys, z, ?_, ?_⟩
        · unfold pySplitChar
          rw [h1]
          simp [hb]
        · rw [List.cons_append]
          unfold pySplitChar
          rw [h2]
          simp [hb]
      · refine ⟨(b :: y) :: ys, z, ?_, ?_⟩
        · unfold pySplitChar
          rw [h1]
          simp [hb]
        · rw [List.cons_append]
          unfold pySplitChar
          rw [h2]
          simp [hb]

/-- The last piece of a Python split at `c` is the maximal `c`-free
suffix. -/
theorem pySplitChar_getLastD (c : Char) (l : List Char) :
    (pySplitChar c l).getLastD [] = afterLast c l := by
  induction l using List.reverseRecOn with
  | nil => rfl
  | append_singleton xs a ih =>
    by_cases h : a = c
    · subst h
      rw [pySplitChar_snoc_sep, List.getLastD_concat]
      unfold afterLast
      rw [List.reverse_append]
      simp
    · obtain ⟨ys, z, h1, h2⟩ := pySplitChar_snoc_ne c a h xs
      rw [h2, List.getLastD_concat]
      have hz : z = afterLast c xs := by
        rw [← ih, h1, List.getLastD_concat]
      unfold afterLast
      rw [List.reverse_append]
      simp only [List.reverse_cons, List.reverse_nil, List.nil_append,
        List.singleton_append, List.takeWhile_cons]
      have hbne : (a != c) = true := bne_iff_ne.mpr h
      rw [hbne]
      simp only [if_true, List.reverse_cons]
      rw [hz]
      rfl

theorem mem_afterLast_ne (c : Char) (l : List Char) (x : Char)
    (hx : x ∈ afterLast c l) : x ≠ c := by
  unfold afterLast at hx
  rw [List.mem_reverse] at hx
  have := List.mem_takeWhile_imp hx
  exact bne_iff_ne.mp this

/-- A suffix free of the separator survives into the maximal separator-free
suffix. -/
theorem suffix_afterLast (c : Char) (l suf : List Char)
    (hs : suf <:+ l) (hnc : c ∉ suf) : suf <:+ afterLast c l := by
  obtain ⟨t, ht⟩ := hs
  have hpos : ∀ x ∈ suf.reverse, (x != c) = true := by
    intro x hx
    rw [List.mem_reverse] at hx
    exact bne_iff_ne.mpr (fun hxc => hnc (hxc ▸ hx))
  refine ⟨(t.reverse.takeWhile (fun x => x != c)).reverse, ?_⟩
  unfold afterLast
  rw [← ht, List.reverse_append, List.takeWhile_append_of_pos hpos,
    List.reverse_append, List.reverse_reverse]

theorem getLastD_map_mk (l : List (List Char)) (d : List Char) :
    ((l.map (fun x => String.mk x)).getLastD (String.mk d)).data
      = l.getLastD d := by
  induction l generalizing d with
  | nil => rfl
  | cons a t ih => rw [List.map_cons, List.getLastD_cons, List.getLastD_cons, ih]

/-- The characters of the derived filename are the maximal slash-free
suffix of the url. -/
theorem pyFilename_data (url : String) :
    (pyFilename url).data = afterLast '/' url.data := by
  unfold pyFilename pySplitSlash
  rw [show ("" : String) = String.mk [] from rfl, getLastD_map_mk,
    pySplitChar_getLastD]

theorem pyEndsWith_iff (s suffix : String) :
    pyEndsWith s suffix = true ↔ suffix.data <:+ s.data := by
  unfold pyEndsWith
  exact List.isSuffixOf_iff_suffix

/-- C9: every url in the Reference Set has a derived filename that is
nonempty, slash-free and itself carries one of the two recognized
suffixes, and its destination path is the filename placed directly under
the output directory - no subdirectory traversal is possible. -/
theorem claim_C9_filename_shape (raw : List (Option String)) (u : String)
    (h : u ∈ referenceSet raw) :
    pyFilename u ≠ "" ∧
    '/' ∉ (pyFilename u).data ∧
    (pyEndsWith (pyFilename u) ".xml" = true ∨
      pyEndsWith (pyFilename u) ".mxl" = true) ∧
    destPath u = "scores/" ++ pyFilename u := by
  have hkeep := mem_referenceSet_keep raw u h
  have hnoslash : '/' ∉ (pyFilename u).data := by
    rw [pyFilename_data]
    intro hmem
    exact mem_afterLast_ne '/' u.data '/' hmem rfl
  have hsuf : (pyEndsWith (pyFilename u) ".xml" = true ∨
      pyEndsWith (pyFilename u) ".mxl" = true) := by
    rcases hkeep.2 with hx | hx
    · left
      rw [pyEndsWith_iff] at hx ⊢
      rw [pyFilename_data]
      exact suffix_afterLast '/' u.data _ hx (by decide)
    · right
      rw [pyEndsWith_iff] at hx ⊢
      rw [pyFilename_data]
      exact suffix_afterLast '/' u.data _ hx (by decide)
  have hne : pyFilename u ≠ "" := by
    intro hempty
    rcases hsuf with hx | hx <;> rw [pyEndsWith_iff, hempty] at hx <;>
      exact absurd (List.eq_nil_of_suffix_nil hx) (by decide)
  refine ⟨hne, hnoslash, hsuf, ?_⟩
  unfold destPath osPathJoin
  split
  · next heq =>
    exact absurd (heq ▸ List.mem_cons_self _ _) hnoslash
  · rfl

/-- Witness for C9 at the single raw option `some "https://x/a.xml"`. -/
theorem claim_C9_filename_shape_witness :
    ("https://x/a.xml" ∈ referenceSet [some "https://x/a.xml"]) ∧
    (pyFilename "https://x/a.xml" ≠ "" ∧
     '/' ∉ (pyFilename "https://x/a.xml").data ∧
     (pyEndsWith (pyFilename "https://x/a.xml") ".xml" = true ∨
       pyEndsWith (pyFilename "https://x/a.xml") ".mxl" = true) ∧
     destPath "https://x/a.xml" = "scores/" ++ pyFilename "https://x/a.xml") :=
  ⟨by decide, claim_C9_filename_shape [some "https://x/a.xml"]
    "https://x/a.xml" (by decide)⟩

/-- C10: urls sharing a final path segment share a destination file, so
within one run the later successful download silently overwrites the
earlier one.  Concretely, fetching both "a/s.xml" and "b/s.xml" (each
body tagged by its url) performs two successful writes but leaves one
distinct destination, holding the later body - strictly fewer files than
successful fetches. -/
theorem claim_C10_filename_collision (u v : String)
    (h : pyFilename u = pyFilename v) :
    destPath u = destPath v ∧
    (runLoop (fun w => FetchResult.success w) (fun _ => true) (fun _ => none)
        ["a/s.xml", "b/s.xml"]).disk (destPath "a/s.xml")
      = some "b/s.xml" ∧
    (runLoop (fun w => FetchResult.success w) (fun _ => true) (fun _ => none)
        ["a/s.xml", "b/s.xml"]).writes.length = 2 ∧
    ((runLoop (fun w => FetchResult.success w) (fun _ => true) (fun _ => none)
        ["a/s.xml", "b/s.xml"]).writes.map Prod.fst).dedup.length = 1 := by
  refine ⟨?_, by decide, rfl, by decide⟩
  unfold destPath
  rw [h]

/-- Witness for C10 at the colliding pair "a/s.xml", "b/s.xml". -/
theorem claim_C10_filename_collision_witness :
    (pyFilename "a/s.xml" = pyFilename "b/s.xml") ∧
    (destPath "a/s.xml" = destPath "b/s.xml" ∧
     (runLoop (fun w => FetchResult.success w) (fun _ => true) (fun _ => none)
        ["a/s.xml", "b/s.xml"]).disk (destPath "a/s.xml")
      = some "b/s.xml" ∧
     (runLoop (fun w => FetchResult.success w) (fun _ => true) (fun _ => none)
        ["a/s.xml", "b/s.xml"]).writes.length = 2 ∧
     ((runLoop (fun w => FetchResult.success w) (fun _ => true) (fun _ => none)
        ["a/s.xml", "b/s.xml"]).writes.map Prod.fst).dedup.length = 1) :=
  ⟨by decide, claim_C10_filename_collision "a/s.xml" "b/s.xml" (by decide)⟩

end Scrapper
